import Mathlib

/-!
Verification development for the AusgabeAnalyst repository.

The Python sources (`src/pdf_parser.py`, `src/categorizer.py`,
`config/categories.py`, `src/data_manager.py`) are shallowly embedded below:
pure functions become Lean functions, exceptions become `Except`, and the
mutable loop of `_extract_transactions` becomes explicit state passing.
Strings are Lean `String`s; the Python string primitives used by the code
(`strip`, `split`, `lower`, `in`, `zfill`, `replace`) are modelled on
`List Char`.
-/

namespace AusgabeAnalyst

/-! ### Python string primitives -/

/-- The whitespace characters recognised by Python `str.strip()` / `\s`
on the ASCII range (the only range statement lines use). -/
def isPySpace (c : Char) : Bool :=
  c = ' ' || c = '\t' || c = '\n' || c = '\x0d' || c = '\x0b' || c = '\x0c'

/-- Python `\d` on the ASCII range. -/
def isPyDigit (c : Char) : Bool := '0' ≤ c && c ≤ '9'

/-- Strip characters satisfying `p` from both ends (Python `str.strip(chars)`). -/
def stripWhile (p : Char → Bool) (l : List Char) : List Char :=
  ((l.dropWhile p).reverse.dropWhile p).reverse

/-- Python `str.lower()` on the alphabet this repository uses: ASCII letters
plus the German capital umlauts.  Every keyword in `config/categories.py` is
already lower-case, so this covers all comparisons the code performs. -/
def pyLowerChar (c : Char) : Char :=
  if 'A' ≤ c ∧ c ≤ 'Z' then Char.ofNat (c.toNat + 32)
  else if c = 'Ä' then 'ä'
  else if c = 'Ö' then 'ö'
  else if c = 'Ü' then 'ü'
  else c

/-- Python `str.lower()`. -/
def pyLower (s : String) : String := ⟨s.data.map pyLowerChar⟩

/-- Does `pre` start `l`? -/
def listStartsWith : List Char → List Char → Bool
  | [], _ => true
  | _ :: _, [] => false
  | a :: as, b :: bs => a = b && listStartsWith as bs

/-- Contiguous-substring test, the semantics of Python `needle in haystack`. -/
def listSub (needle : List Char) : List Char → Bool
  | [] => needle.isEmpty
  | h :: t => listStartsWith needle (h :: t) || listSub needle t

/-- Python `needle in haystack` on strings. -/
def pyIn (needle haystack : String) : Bool := listSub needle.data haystack.data

/-- Python `str.split(sep)` for a one-character separator: exact splitting,
keeping empty pieces, `"".split(sep) == [""]`. -/
def splitOnChar (sep : Char) : List Char → List (List Char)
  | [] => [[]]
  | c :: cs =>
    let r := splitOnChar sep cs
    if c = sep then [] :: r
    else
      match r with
      | [] => [[c]]
      | h :: t => (c :: h) :: t

/-- Python `str.zfill(n)` for strings without a sign character (the only
inputs the code feeds it). -/
def zfill (n : Nat) (s : List Char) : List Char :=
  List.replicate (n - s.length) '0' ++ s

/-! ### `config/categories.py` -/

/-- A Python dict from category name to keyword list, embedded as an
insertion-ordered association list (CPython dicts preserve insertion order,
which `categorize` relies on). -/
abbrev Registry := List (String × List String)

/-- `CATEGORY_KEYWORDS` from `config/categories.py`, in declaration order. -/
def CATEGORY_KEYWORDS : Registry :=
  [("Groceries",
    ["aldi", "lidl", "edeka", "rewe", "kaufland", "netto", "penny",
     "herkules", "mix markt", "city markt", "ariana mini market",
     "schwaelmer brotladen", "schaefers backstuben"]),
   ("Restaurants & Dining",
    ["restaurant", "pizza", "burger", "murg", "phung", "chicken house",
     "gastro", "zam zam", "halal food", "somat doner", "lezzeti mangal",
     "central grill", "west imbiss", "espresso house", "malamania"]),
   ("Income",
    ["lohn", "gehalt", "rente", "zenjob", "gutschrift", "salary"]),
   ("Personal Care",
    ["dm drogerie", "dm drogeriemarkt", "rossmann", "müller", "apotheke", "pharmacy"]),
   ("Telecommunications",
    ["drillisch", "sim24", "telekom", "vodafone", "o2"]),
   ("Clothing",
    ["kik", "h&m", "zara", "c&a", "primark", "takko holding", "woolworth"]),
   ("Transportation",
    ["tankstelle", "shell", "aral", "esso", "db ", "bahn", "rmv", "flix"]),
   ("Cash Withdrawal",
    ["auszahlung", "geldautomat", "withdrawal", "atm"]),
   ("Transfers",
    ["überweisung", "transfer", "sepa", "wise"]),
   ("Shopping",
    ["amazon", "ebay", "online", "shop"]),
   ("Other", [])]

/-- `DEFAULT_CATEGORY` from `config/categories.py`. -/
def DEFAULT_CATEGORY : String := "Other"

/-! ### `src/categorizer.py` -/

/-- Python dict lookup `reg[cat]` / membership `cat in reg` (first entry with
the key; dicts have unique keys). -/
def regFind (reg : Registry) (cat : String) : Option (List String) :=
  match reg.find? (fun p => p.1 = cat) with
  | some p => some p.2
  | none => none

/-- The hard-coded `priority_order` list inside
`TransactionCategorizer.categorize`. -/
def priority_order : List String :=
  ["Groceries", "Restaurants & Dining", "Personal Care",
   "Telecommunications", "Clothing", "Transportation", "Income"]

/-- The inner keyword loop of `categorize`: `keyword.lower() in
description_lower` for some keyword of the category, first hit short-circuits. -/
def keywordHit (keywords : List String) (dl : String) : Bool :=
  keywords.any (fun k => pyIn (pyLower k) dl)

/-- The first `for category in priority_order` loop of `categorize`:
scan the given category names in order, skipping names missing from the
registry, and return the first category one of whose keywords occurs in the
lowered description. -/
def scanTier (reg : Registry) (dl : String) : List String → Option String
  | [] => none
  | c :: cs =>
    match regFind reg c with
    | some kws => if keywordHit kws dl then some c else scanTier reg dl cs
    | none => scanTier reg dl cs

/-- The second loop of `categorize`: scan the registry entries in declared
order, skipping categories that belong to `priority_order`. -/
def scanRest (dl : String) : Registry → Option String
  | [] => none
  | (c, kws) :: rest =>
    if priority_order.contains c then scanRest dl rest
    else if keywordHit kws dl then some c else scanRest dl rest

/-- `TransactionCategorizer.categorize`, with the instance's registry passed
explicitly. -/
def categorize (reg : Registry) (description : String) : String :=
  let description_lower := pyLower description
  match scanTier reg description_lower priority_order with
  | some c => c
  | none =>
    match scanRest description_lower reg with
    | some c => c
    | none => DEFAULT_CATEGORY

/-- Append `kws` to the keyword list stored under `cat` (Python
`list.extend` on the list object held by the dict). -/
def extendAt (reg : Registry) (cat : String) (kws : List String) : Registry :=
  reg.map (fun p => if p.1 = cat then (p.1, p.2 ++ kws) else p)

/-- `TransactionCategorizer.__init__(custom_keywords)`.  The constructor does
`self.category_keywords = CATEGORY_KEYWORDS.copy()`, a SHALLOW dict copy: the
keyword lists themselves stay shared with the module-level registry.  We model
the heap by passing the module registry through: the result is
`(instance registry, module registry after construction)`.  `extend` on an
existing category mutates the shared list, so it updates both registries;
assigning a brand-new category only touches the instance dict. -/
def categorizerInit (module : Registry) (custom : List (String × List String)) :
    Registry × Registry :=
  custom.foldl
    (fun (st : Registry × Registry) ck =>
      if (regFind st.1 ck.1).isSome then
        (extendAt st.1 ck.1 ck.2,
         if (regFind st.2 ck.1).isSome then extendAt st.2 ck.1 ck.2 else st.2)
      else (st.1 ++ [(ck.1, ck.2)], st.2))
    (module, module)

/-- `TransactionCategorizer.add_keyword(category, keyword)` with the same
explicit-heap convention as `categorizerInit`: appending to a category list
shared with the module registry (every category of the original shallow copy)
mutates the module registry as well. -/
def add_keyword (inst module : Registry) (cat kw : String) : Registry × Registry :=
  let inst := if (regFind inst cat).isSome then inst else inst ++ [(cat, [])]
  match regFind inst cat with
  | some kws =>
    if (kws.map pyLower).contains (pyLower kw) then (inst, module)
    else (extendAt inst cat [kw],
          if (regFind module cat).isSome then extendAt module cat [kw] else module)
  | none => (inst, module)

/-! ### Lemmas about the category scan -/

theorem scanTier_mem {reg : Registry} {dl : String} :
    ∀ {cs : List String} {c : String}, scanTier reg dl cs = some c → c ∈ cs := by
  intro cs
  induction cs with
  | nil => intro c h; simp [scanTier] at h
  | cons a as ih =>
    intro c h
    cases hf : regFind reg a with
    | none =>
      simp only [scanTier, hf] at h
      exact List.mem_cons_of_mem _ (ih h)
    | some kws =>
      simp only [scanTier, hf] at h
      by_cases hk : keywordHit kws dl = true
      · rw [if_pos hk] at h
        cases h
        exact List.mem_cons_self _ _
      · rw [if_neg hk] at h
        exact List.mem_cons_of_mem _ (ih h)

theorem scanTier_hit {reg : Registry} {dl : String} {c : String} {kws : List String}
    (hf : regFind reg c = some kws) (hk : keywordHit kws dl = true) :
    ∀ {cs : List String}, c ∈ cs → (scanTier reg dl cs).isSome = true := by
  intro cs
  induction cs with
  | nil => intro hc; cases hc
  | cons a as ih =>
    intro hc
    cases hfa : regFind reg a with
    | none =>
      simp only [scanTier, hfa]
      rcases List.mem_cons.mp hc with rfl | hmem
      · rw [hfa] at hf; cases hf
      · exact ih hmem
    | some kwsa =>
      simp only [scanTier, hfa]
      by_cases hka : keywordHit kwsa dl = true
      · simp [hka]
      · rw [if_neg hka]
        rcases List.mem_cons.mp hc with rfl | hmem
        · rw [hfa] at hf
          cases hf
          exact absurd hk hka
        · exact ih hmem

theorem scanTier_append (reg : Registry) (dl : String) (cs ds : List String) :
    scanTier reg dl (cs ++ ds) =
      (scanTier reg dl cs).orElse (fun _ => scanTier reg dl ds) := by
  induction cs with
  | nil => simp [scanTier, Option.orElse]
  | cons a as ih =>
    cases hf : regFind reg a with
    | none =>
      simp only [List.cons_append, scanTier, hf]
      exact ih
    | some kws =>
      simp only [List.cons_append, scanTier, hf]
      by_cases h : keywordHit kws dl = true
      · simp [h, Option.orElse]
      · simp only [if_neg h]; exact ih

theorem scanTier_skip_head (c : String) (kws : List String) (rest : Registry) (dl : String)
    {cs : List String} (hne : ∀ x ∈ cs, x ≠ c) :
    scanTier ((c, kws) :: rest) dl cs = scanTier rest dl cs := by
  induction cs with
  | nil => rfl
  | cons a as ih =>
    have ha : a ≠ c := hne a (List.mem_cons_self _ _)
    have hfind : regFind ((c, kws) :: rest) a = regFind rest a := by
      simp only [regFind, List.find?]
      have hd : (decide ((c, kws).1 = a)) = false := by
        simp only [decide_eq_false_iff_not]
        exact fun e => ha e.symm
      rw [hd]
    cases hra : regFind rest a with
    | none =>
      simp only [scanTier, hfind, hra]
      exact ih fun x hx => hne x (List.mem_cons_of_mem _ hx)
    | some kwsa =>
      simp only [scanTier, hfind, hra]
      by_cases h : keywordHit kwsa dl = true
      · simp [h]
      · simp only [if_neg h]
        exact ih fun x hx => hne x (List.mem_cons_of_mem _ hx)

theorem scanRest_eq_scanTier (dl : String) :
    ∀ (reg : Registry), (reg.map Prod.fst).Nodup →
      scanRest dl reg =
        scanTier reg dl ((reg.map Prod.fst).filter (fun c => !(priority_order.contains c))) := by
  intro reg
  induction reg with
  | nil => intro _; rfl
  | cons p rest ih =>
    intro hnd
    obtain ⟨c, kws⟩ := p
    simp only [List.map_cons, List.nodup_cons] at hnd
    obtain ⟨hcnot, hndrest⟩ := hnd
    have hskip : ∀ x ∈ (rest.map Prod.fst).filter (fun c0 => !(priority_order.contains c0)),
        x ≠ c := by
      intro x hx he
      exact hcnot (he ▸ List.mem_of_mem_filter hx)
    by_cases hp : priority_order.contains c = true
    · have hlhs : scanRest dl ((c, kws) :: rest) = scanRest dl rest := by
        simp only [scanRest, hp, if_true]
      have hfil : (((c, kws) :: rest).map Prod.fst).filter
            (fun c0 => !(priority_order.contains c0)) =
          (rest.map Prod.fst).filter (fun c0 => !(priority_order.contains c0)) := by
        simp only [List.map_cons, List.filter_cons, hp, Bool.not_true]
        simp
      rw [hlhs, hfil, scanTier_skip_head c kws rest dl hskip, ih hndrest]
    · have hp' : priority_order.contains c = false := by
        cases h : priority_order.contains c
        · rfl
        · exact absurd h hp
      have hlhs : scanRest dl ((c, kws) :: rest) =
          if keywordHit kws dl = true then some c else scanRest dl rest := by
        simp only [scanRest, hp', Bool.false_eq_true, if_false]
      have hfil : (((c, kws) :: rest).map Prod.fst).filter
            (fun c0 => !(priority_order.contains c0)) =
          c :: (rest.map Prod.fst).filter (fun c0 => !(priority_order.contains c0)) := by
        simp only [List.map_cons, List.filter_cons, hp', Bool.not_false]
        simp
      have hfind : regFind ((c, kws) :: rest) c = some kws := by
        simp [regFind, List.find?]
      rw [hlhs, hfil]
      by_cases h : keywordHit kws dl = true
      · simp only [scanTier, hfind, if_pos h]
      · simp only [scanTier, hfind, if_neg h]
        rw [scanTier_skip_head c kws rest dl hskip, ih hndrest]

/-! ### Claims about the categorizer -/

/-- C3: a description containing (case-insensitively) a keyword of a
priority-tier category is always classified to a priority-tier category,
whatever fallback-tier keywords it also contains; in particular any
description containing "aldi" (and possibly "transfer") classifies as
Groceries. -/
theorem priority_tier_wins :
    (∀ d : String,
      (∃ c ∈ priority_order, ∃ kws, regFind CATEGORY_KEYWORDS c = some kws ∧
        ∃ k ∈ kws, pyIn (pyLower k) (pyLower d) = true) →
      categorize CATEGORY_KEYWORDS d ∈ priority_order) ∧
    (∀ d : String, pyIn "aldi" (pyLower d) = true → pyIn "transfer" (pyLower d) = true →
      categorize CATEGORY_KEYWORDS d = "Groceries") := by
  constructor
  · rintro d ⟨c, hc, kws, hf, k, hk, hsub⟩
    have hhit : keywordHit kws (pyLower d) = true := by
      simp only [keywordHit, List.any_eq_true]
      exact ⟨k, hk, hsub⟩
    have hsome := scanTier_hit hf hhit hc
    simp only [categorize]
    cases hs : scanTier CATEGORY_KEYWORDS (pyLower d) priority_order with
    | none => rw [hs] at hsome; cases hsome
    | some c0 =>
      simp only [hs]
      exact scanTier_mem hs
  · intro d h1 _h2
    have hfind : regFind CATEGORY_KEYWORDS "Groceries" =
        some ["aldi", "lidl", "edeka", "rewe", "kaufland", "netto", "penny",
              "herkules", "mix markt", "city markt", "ariana mini market",
              "schwaelmer brotladen", "schaefers backstuben"] := by decide
    have hlow : pyLower "aldi" = "aldi" := by decide
    have hhit : keywordHit
        ["aldi", "lidl", "edeka", "rewe", "kaufland", "netto", "penny",
         "herkules", "mix markt", "city markt", "ariana mini market",
         "schwaelmer brotladen", "schaefers backstuben"] (pyLower d) = true := by
      simp only [keywordHit, List.any_cons, hlow, h1, Bool.true_or]
    have hstep : scanTier CATEGORY_KEYWORDS (pyLower d) priority_order = some "Groceries" := by
      show scanTier CATEGORY_KEYWORDS (pyLower d) ("Groceries" :: _) = some "Groceries"
      simp only [scanTier, hfind, hhit, if_true]
    simp only [categorize, hstep]

/-- C3 witness: instantiation at a description containing the Groceries
keyword "aldi" and the Transfers keyword "transfer". -/
theorem priority_tier_wins_witness :
    categorize CATEGORY_KEYWORDS "aldi transfer" = "Groceries" :=
  priority_tier_wins.2 "aldi transfer" (by decide) (by decide)

/-- C4 counterexample: "Gehalt Apotheke" contains an Income keyword
("gehalt") and a Personal Care keyword ("apotheke"); Income is declared
before Personal Care in the registry, so the claim predicts Income, but the
code scans its hard-coded `priority_order` (where Income comes last) and
returns Personal Care. -/
theorem registry_order_counterexample :
    categorize CATEGORY_KEYWORDS "Gehalt Apotheke" = "Personal Care" ∧
    categorize CATEGORY_KEYWORDS "Gehalt Apotheke" ≠ "Income" ∧
    pyIn (pyLower "gehalt") (pyLower "Gehalt Apotheke") = true ∧
    pyIn (pyLower "apotheke") (pyLower "Gehalt Apotheke") = true ∧
    (CATEGORY_KEYWORDS.map Prod.fst).indexOf "Income" <
      (CATEGORY_KEYWORDS.map Prod.fst).indexOf "Personal Care" := by decide

/-- C4 amended: `categorize` scans categories as a single flattened decision
list: first the hard-coded `priority_order` (Groceries, Restaurants & Dining,
Personal Care, Telecommunications, Clothing, Transportation, Income — not the
registry declaration order), then the remaining registry categories in
declared order; within a category, keywords are scanned in declared order and
the first lowered keyword that is a substring of the lowered description wins
immediately; the default category is returned when nothing matches. -/
theorem categorize_flat_scan (reg : Registry) (d : String)
    (hnd : (reg.map Prod.fst).Nodup) :
    categorize reg d =
      (scanTier reg (pyLower d)
        (priority_order ++
          (reg.map Prod.fst).filter (fun c => !(priority_order.contains c)))).getD
        DEFAULT_CATEGORY := by
  simp only [categorize]
  rw [scanTier_append]
  cases hs : scanTier reg (pyLower d) priority_order with
  | some c => simp [hs, Option.orElse]
  | none =>
    simp only [hs, Option.orElse]
    rw [← scanRest_eq_scanTier (pyLower d) reg hnd]
    cases scanRest (pyLower d) reg with
    | some c => rfl
    | none => rfl

/-- C4 amended witness: the flattened-scan description of `categorize`,
instantiated at the default registry and the description of the
counterexample. -/
theorem categorize_flat_scan_witness :
    categorize CATEGORY_KEYWORDS "Gehalt Apotheke" =
      (scanTier CATEGORY_KEYWORDS (pyLower "Gehalt Apotheke")
        (priority_order ++
          (CATEGORY_KEYWORDS.map Prod.fst).filter (fun c => !(priority_order.contains c)))).getD
        DEFAULT_CATEGORY :=
  categorize_flat_scan CATEGORY_KEYWORDS "Gehalt Apotheke" (by decide)

/-- C9: the constructor's `CATEGORY_KEYWORDS.copy()` is shallow, so extending
an existing default category — via `custom_keywords` at construction or via
`add_keyword` — mutates the shared module-level keyword lists: a categorizer
constructed afterwards without custom keywords also classifies with the added
keyword ("zzmart" lands in the module registry's Groceries list), while the
pristine registry classifies the same description as Other. -/
theorem shallow_copy_mutates_module_registry :
    (categorizerInit CATEGORY_KEYWORDS [("Groceries", ["zzmart"])]).2 ≠ CATEGORY_KEYWORDS ∧
    categorize
      (categorizerInit (categorizerInit CATEGORY_KEYWORDS [("Groceries", ["zzmart"])]).2 []).1
      "ZZMART Einkauf" = "Groceries" ∧
    categorize CATEGORY_KEYWORDS "ZZMART Einkauf" = "Other" ∧
    (add_keyword CATEGORY_KEYWORDS CATEGORY_KEYWORDS "Groceries" "zzmart").2 ≠ CATEGORY_KEYWORDS ∧
    categorize
      (categorizerInit (add_keyword CATEGORY_KEYWORDS CATEGORY_KEYWORDS "Groceries" "zzmart").2 []).1
      "ZZMART Einkauf" = "Groceries" := by decide

deriving instance DecidableEq for Except

/-! ### `src/pdf_parser.py` — token recognisers

The two regular expressions of `_extract_transactions` are embedded directly:

* `row_start_pattern = ^(\d{2}\.\d{2}\.)\s+(\d{2}\.\d{2}\.)`, used with
  `.match` on the stripped line;
* `amount_pattern = ([\d,\.]+)\s+([SH])$`, used with `.search`.

For the second one, a match must end at the final character, which must be
`S` or `H`, preceded by a non-empty whitespace run, preceded by a non-empty
run of amount characters; the leftmost such match starts at the beginning of
that maximal amount-character run (amount characters and whitespace are
disjoint, so no earlier start can reach the line end).  The model therefore
scans from the right. -/

/-- Match one `\d{2}\.\d{2}\.` date token at the head of `l`; returns the
token and the remaining characters. -/
def matchDateTok : List Char → Option (List Char × List Char)
  | d1 :: d2 :: '.' :: m1 :: m2 :: '.' :: rest =>
    if isPyDigit d1 && isPyDigit d2 && isPyDigit m1 && isPyDigit m2 then
      some ([d1, d2, '.', m1, m2, '.'], rest)
    else none
  | _ => none

/-- `row_start_pattern.match(line)`: two `DD.MM.` tokens separated by
whitespace, anchored at the line start.  Returns the two date tokens and the
index one past the second token (`row_match.end()`). -/
def matchRowStart (l : List Char) : Option (List Char × List Char × Nat) :=
  match matchDateTok l with
  | none => none
  | some (vd, rest1) =>
    let ws := rest1.takeWhile isPySpace
    if ws.isEmpty then none
    else
      match matchDateTok (rest1.drop ws.length) with
      | none => none
      | some (bd, _) => some (vd, bd, 6 + ws.length + 6)

/-- The character class `[\d,\.]` of `amount_pattern`. -/
def isAmtChar (c : Char) : Bool := isPyDigit c || c = ',' || c = '.'

/-- `amount_pattern.search(line)`: returns the amount group, the `S`/`H`
indicator and the match start index (`amt_match.start()`). -/
def findAmount (l : List Char) : Option (List Char × Char × Nat) :=
  match l.reverse with
  | [] => none
  | ind :: rest =>
    if ind = 'S' || ind = 'H' then
      let ws := rest.takeWhile isPySpace
      if ws.isEmpty then none
      else
        let amtRev := (rest.drop ws.length).takeWhile isAmtChar
        if amtRev.isEmpty then none
        else some (amtRev.reverse, ind, l.length - 1 - ws.length - amtRev.length)
    else none

/-! ### `src/pdf_parser.py` — normalizers -/

/-- `VolksbankPDFParser._parse_date(date_str, year)`.  The Python body is
`day, month = date_str.strip('.').split('.')` followed by an f-string; a
split that does not produce exactly two parts makes the tuple unpacking raise
`ValueError`, modelled as `Except.error`.  The parts are NOT checked for
being numeric. -/
def parse_date (date_str : String) (year : String) : Except String String :=
  match splitOnChar '.' (stripWhile (fun c => c = '.') date_str.data) with
  | [day, month] =>
    .ok ⟨year.data ++ '-' :: (zfill 2 month ++ '-' :: zfill 2 day)⟩
  | _ => .error "ValueError: unpack"

/-- Decimal value of a digit string (used by the `float()` model). -/
def digitsVal (l : List Char) : Nat :=
  l.foldl (fun acc c => 10 * acc + (c.toNat - 48)) 0

/-- Python `float()` restricted to strings of decimal digits and dots — the
only strings `_parse_amount` can feed it, since its argument is captured by
`[\d,\.]+` and then every `.` is removed and every `,` turned into `.`.
`float` succeeds on such a string exactly when it has at most one dot and at
least one digit; the value is exact (floats are modelled as rationals). -/
def pyFloat (l : List Char) : Except String ℚ :=
  if l.all (fun c => isPyDigit c || c = '.') then
    match splitOnChar '.' l with
    | [a] => if a.isEmpty then .error "ValueError: float" else .ok (mkRat (digitsVal a) 1)
    | [a, b] =>
      if a.isEmpty && b.isEmpty then .error "ValueError: float"
      else .ok (mkRat (digitsVal a * 10 ^ b.length + digitsVal b) (10 ^ b.length))
    | _ => .error "ValueError: float"
  else .error "ValueError: float"

/-- `VolksbankPDFParser._parse_amount(amount_str, type_indicator)`:
`amount_str.replace('.', '').replace(',', '.')`, then `float`, then negation
for the debit indicator `S`. -/
def parse_amount (amount_str : String) (type_indicator : Char) : Except String ℚ := do
  let cleaned := (amount_str.data.filter (fun c => c ≠ '.')).map
    (fun c => if c = ',' then '.' else c)
  let amount ← pyFloat cleaned
  return if type_indicator = 'S' then -amount else amount

/-! ### `src/pdf_parser.py` — the extraction loop

`_extract_transactions` builds dicts and mutates them through the alias held
in `current_transaction` even after appending them to `transactions`; when a
record-start line carries no trailing amount token, the already-appended dict
is appended AGAIN later (or at the end-of-loop flush), so the list can hold
several references to one dict.  The heap is modelled by grouping the output
list into maximal runs of aliases of one dict: `groups` holds the flushed
runs `(final value, number of list slots)`, and `cur` holds the live dict
with the number of list slots already pointing at it.  Appends of anything
else can only happen after `current_transaction` is reassigned, so the slots
of one dict are always contiguous and this representation is exact. -/

/-- The transaction dict as built by the loop (before the final
`description` join). -/
structure Txn where
  value_date : String
  booking_date : String
  description_lines : List String
  amount : ℚ
  type : String
  raw_description : String
deriving DecidableEq, Repr

/-- The transaction dict after the final join replaced `description_lines`
with `description`. -/
structure FinalTxn where
  value_date : String
  booking_date : String
  description : String
  amount : ℚ
  type : String
  raw_description : String
deriving DecidableEq, Repr

/-- Loop state of `_extract_transactions`: `groups` are the alias runs of
dicts no longer reachable through `current_transaction`; `cur` is
`current_transaction` together with the number of entries of `transactions`
already holding a reference to it. -/
structure ExtractState where
  groups : List (Txn × Nat)
  cur : Option (Txn × Nat)
deriving DecidableEq, Repr

/-- One iteration of the `for line in lines` loop of
`_extract_transactions`. -/
def extractStep (year : String) (st : ExtractState) (rawLine : String) :
    Except String ExtractState := do
  let l : List Char := stripWhile isPySpace rawLine.data
  match matchRowStart l with
  | some (vd, bd, rowEnd) =>
    -- `if current_transaction: transactions.append(current_transaction)`
    let bumped : Option (Txn × Nat) := st.cur.map (fun p => (p.1, p.2 + 1))
    match findAmount l with
    | some (amtStr, typeInd, amtStart) =>
      -- `desc_part = line[row_match.end():amt_match.start()].strip()`
      let descPart := stripWhile isPySpace ((l.drop rowEnd).take (amtStart - rowEnd))
      let vdate ← parse_date ⟨vd⟩ year
      let bdate ← parse_date ⟨bd⟩ year
      let amount ← parse_amount ⟨amtStr⟩ typeInd
      let t : Txn :=
        { value_date := vdate
          booking_date := bdate
          description_lines := [⟨descPart⟩]
          amount := amount
          type := if typeInd = 'H' then "Credit" else "Debit"
          raw_description := ⟨l⟩ }
      return { groups := st.groups ++ (match bumped with | some g => [g] | none => [])
               cur := some (t, 0) }
    | none =>
      -- no trailing amount: `current_transaction` is left untouched
      return { groups := st.groups, cur := bumped }
  | none =>
    match st.cur with
    | some (t, k) =>
      if l ≠ [] && !(match l with | c :: _ => isPyDigit c | [] => false) then
        -- continuation line: mutate the dict through the alias
        return { groups := st.groups
                 cur := some ({ t with
                   description_lines := t.description_lines ++ [⟨l⟩]
                   raw_description := t.raw_description ++ " " ++ ⟨l⟩ }, k) }
      else return st
    | none => return st

/-- The whole `for line in lines` loop. -/
def processLines (year : String) : List String → ExtractState → Except String ExtractState
  | [], st => .ok st
  | line :: rest, st => do
    let st1 ← extractStep year st line
    processLines year rest st1

/-- The alias runs of the `transactions` list after the loop and the final
`if current_transaction: transactions.append(current_transaction)`. -/
def finalGroups (st : ExtractState) : List (Txn × Nat) :=
  st.groups ++ (match st.cur with | some (t, k) => [(t, k + 1)] | none => [])

/-- The `transactions` list itself (each dict repeated once per slot holding
a reference to it). -/
def materialize (st : ExtractState) : List Txn :=
  (finalGroups st).flatMap (fun g => List.replicate g.2 g.1)

/-- `t['description'] = " ".join(t.pop('description_lines'))` on one dict. -/
def finalizeTxn (t : Txn) : FinalTxn :=
  { value_date := t.value_date
    booking_date := t.booking_date
    description := " ".intercalate t.description_lines
    amount := t.amount
    type := t.type
    raw_description := t.raw_description }

/-- The final `for t in transactions` join loop.  `t.pop('description_lines')`
raises `KeyError` on the second visit to a dict that occurs more than once in
the list, so finalization succeeds exactly when every alias run has a single
slot. -/
def finalizeAll (st : ExtractState) : Except String (List FinalTxn) :=
  if (finalGroups st).all (fun g => g.2 == 1) then
    .ok ((finalGroups st).map (fun g => finalizeTxn g.1))
  else .error "KeyError: description_lines"

/-- `VolksbankPDFParser._extract_transactions(text, year)` (with the year
supplied, as `parse_pdf` does from the statement metadata). -/
def extract_transactions (text : String) (year : String) :
    Except String (List FinalTxn) := do
  let lines := (splitOnChar '\n' text.data).map (fun l => (⟨l⟩ : String))
  let st ← processLines year lines { groups := [], cur := none }
  finalizeAll st

/-- Python `str.upper()` on the same alphabet as `pyLowerChar`. -/
def pyUpperChar (c : Char) : Char :=
  if 'a' ≤ c ∧ c ≤ 'z' then Char.ofNat (c.toNat - 32)
  else if c = 'ä' then 'Ä'
  else if c = 'ö' then 'Ö'
  else if c = 'ü' then 'Ü'
  else c

/-- `VolksbankPDFParser._clean_description(description)`: split on newlines,
drop blank lines; return "Unknown" when nothing remains; if the first line
contains a generic header (upper-cased comparison) and more lines exist,
return the first of the next two lines whose first five characters contain no
digit, else the first line. -/
def clean_description (description : String) : String :=
  let lines := ((splitOnChar '\n' description.data).map
    (fun l => stripWhile isPySpace l)).filter (fun l => !l.isEmpty)
  match lines with
  | [] => "Unknown"
  | main :: restLines =>
    let ignore_headers : List String :=
      ["KARTENZAHLUNG GIROCARD", "BASISLASTSCHRIFT", "ÜBERWEISUNG", "GUTSCHRIFT"]
    let upper : String := ⟨main.map pyUpperChar⟩
    if (ignore_headers.any (fun h => pyIn h upper)) && !restLines.isEmpty then
      match (restLines.take 2).find?
        (fun v => !((v.take 5).any (fun c => isPyDigit c))) with
      | some v => ⟨v⟩
      | none => ⟨main⟩
    else ⟨main⟩

/-! ### Claims about the extractor and normalizers -/

/-- C1 (code-bug evidence): on the spec's two lines the pipeline as coded
yields exactly one record with amount -12.34 (⟦mkRat (-1234) 100⟧) as
claimed, but its description still carries the generic header:
`_extract_transactions` joins ALL description lines with spaces and never
invokes `_clean_description` — the dead normalizer that is designed (and
unit-tested) to strip exactly this header, and that would return the spec's
"ALDI SE + CO KG" if it were applied to the newline-joined lines. -/
theorem multiline_extraction_actual :
    extract_transactions
        "01.10. 02.10. KARTENZAHLUNG GIROCARD 12,34 S\nALDI SE + CO KG" "2025" =
      .ok [{ value_date := "2025-10-01", booking_date := "2025-10-02",
             description := "KARTENZAHLUNG GIROCARD ALDI SE + CO KG",
             amount := mkRat (-1234) 100, type := "Debit",
             raw_description :=
               "01.10. 02.10. KARTENZAHLUNG GIROCARD 12,34 S ALDI SE + CO KG" }] ∧
    "KARTENZAHLUNG GIROCARD ALDI SE + CO KG" ≠ "ALDI SE + CO KG" ∧
    clean_description "KARTENZAHLUNG GIROCARD\nALDI SE + CO KG" = "ALDI SE + CO KG" := by
  decide

/-- C2 counterexample: "01.10. 02.10. FOO" matches the record-start pattern
and has no trailing amount token, yet after processing it the loop state is
unchanged — no active record was opened (and hence nothing is ever emitted
for it), contradicting the claim that such a line still opens a record with
amount fields pending. -/
theorem no_amount_opens_no_record :
    (matchRowStart (stripWhile isPySpace ("01.10. 02.10. FOO" : String).data)).isSome = true ∧
    findAmount (stripWhile isPySpace ("01.10. 02.10. FOO" : String).data) = none ∧
    processLines "2025" ["01.10. 02.10. FOO"] { groups := [], cur := none } =
      .ok { groups := [], cur := none } ∧
    extract_transactions "01.10. 02.10. FOO\nBAR" "2025" = .ok [] := by
  decide

/-- C2 amended: a record-start line with no trailing amount token is
discarded — no new record is opened and no error is raised; the previously
active record (if any) is appended to the output once more and stays bound
as the accumulator. -/
theorem no_amount_line_discarded (year : String) (st : ExtractState) (line : String)
    (hrow : (matchRowStart (stripWhile isPySpace line.data)).isSome = true)
    (hamt : findAmount (stripWhile isPySpace line.data) = none) :
    extractStep year st line =
      .ok { groups := st.groups, cur := st.cur.map (fun p => (p.1, p.2 + 1)) } := by
  obtain ⟨⟨vd, bd, rowEnd⟩, hm⟩ := Option.isSome_iff_exists.mp hrow
  simp only [extractStep, hm, hamt]
  rfl

/-- C2 amended witness: a concrete no-amount record-start line processed from
a state with an active record. -/
theorem no_amount_line_discarded_witness :
    extractStep "2025"
      { groups := [],
        cur := some ({ value_date := "2025-10-01", booking_date := "2025-10-02",
                       description_lines := ["A"], amount := mkRat (-100) 100,
                       type := "Debit", raw_description := "01.10. 02.10. A 1,00 S" }, 0) }
      "03.10. 04.10. NOAMT" =
      .ok { groups := [],
            cur := some ({ value_date := "2025-10-01", booking_date := "2025-10-02",
                           description_lines := ["A"], amount := mkRat (-100) 100,
                           type := "Debit", raw_description := "01.10. 02.10. A 1,00 S" }, 1) } :=
  no_amount_line_discarded "2025" _ "03.10. 04.10. NOAMT" (by decide) (by decide)

/-- C10: a record-start line with no trailing amount token makes the loop
append the previously active record to the output (one more output slot)
while keeping it bound as the accumulator; the matching line itself is
discarded; a following continuation line is appended to the description and
raw description of that already-emitted record, and the update is visible at
every output slot holding it — no new record exists for the date-matching
line. -/
theorem emitted_record_still_accumulates (year : String) (st : ExtractState)
    (t : Txn) (k : Nat) (line cont : String)
    (hcur : st.cur = some (t, k))
    (hrow : (matchRowStart (stripWhile isPySpace line.data)).isSome = true)
    (hamt : findAmount (stripWhile isPySpace line.data) = none)
    (hcrow : matchRowStart (stripWhile isPySpace cont.data) = none)
    (hcne : stripWhile isPySpace cont.data ≠ [])
    (hcdig : (match stripWhile isPySpace cont.data with
              | c :: _ => isPyDigit c
              | [] => false) = false) :
    extractStep year st line = .ok { groups := st.groups, cur := some (t, k + 1) } ∧
    extractStep year { groups := st.groups, cur := some (t, k + 1) } cont =
      .ok { groups := st.groups
            cur := some ({ t with
              description_lines :=
                t.description_lines ++ [⟨stripWhile isPySpace cont.data⟩]
              raw_description :=
                t.raw_description ++ " " ++ ⟨stripWhile isPySpace cont.data⟩ }, k + 1) } ∧
    materialize
        { groups := st.groups
          cur := some ({ t with
            description_lines :=
              t.description_lines ++ [⟨stripWhile isPySpace cont.data⟩]
            raw_description :=
              t.raw_description ++ " " ++ ⟨stripWhile isPySpace cont.data⟩ }, k + 1) } =
      st.groups.flatMap (fun g => List.replicate g.2 g.1) ++
        List.replicate (k + 2) { t with
          description_lines := t.description_lines ++ [⟨stripWhile isPySpace cont.data⟩]
          raw_description := t.raw_description ++ " " ++ ⟨stripWhile isPySpace cont.data⟩ } := by
  obtain ⟨⟨vd, bd, rowEnd⟩, hm⟩ := Option.isSome_iff_exists.mp hrow
  refine ⟨?_, ?_, ?_⟩
  · simp only [extractStep, hm, hamt, hcur]
    rfl
  · have hcond : (decide (stripWhile isPySpace cont.data ≠ []) &&
        !(match stripWhile isPySpace cont.data with
          | c :: _ => isPyDigit c
          | [] => false)) = true := by
      simp only [Bool.and_eq_true, decide_eq_true_eq, hcdig, Bool.not_false]
      exact ⟨hcne, trivial⟩
    simp only [extractStep, hcrow, hcond, if_true]
    rfl
  · simp only [materialize, finalGroups, List.flatMap_append, List.flatMap_cons,
      List.flatMap_nil, List.append_nil]

/-- C10 witness: concrete state, no-amount line and continuation line. -/
theorem emitted_record_still_accumulates_witness :
    (extractStep "2025"
        { groups := [],
          cur := some ({ value_date := "2025-10-01", booking_date := "2025-10-02",
                         description_lines := ["A"], amount := mkRat (-100) 100,
                         type := "Debit", raw_description := "01.10. 02.10. A 1,00 S" }, 0) }
        "03.10. 04.10. NOAMT" =
      .ok { groups := [],
            cur := some ({ value_date := "2025-10-01", booking_date := "2025-10-02",
                           description_lines := ["A"], amount := mkRat (-100) 100,
                           type := "Debit", raw_description := "01.10. 02.10. A 1,00 S" }, 1) }) ∧
    (extractStep "2025"
        { groups := [],
          cur := some ({ value_date := "2025-10-01", booking_date := "2025-10-02",
                         description_lines := ["A"], amount := mkRat (-100) 100,
                         type := "Debit", raw_description := "01.10. 02.10. A 1,00 S" }, 1) }
        "EXTRA" =
      .ok { groups := [],
            cur := some ({ value_date := "2025-10-01", booking_date := "2025-10-02",
                           description_lines := ["A", "EXTRA"], amount := mkRat (-100) 100,
                           type := "Debit",
                           raw_description := "01.10. 02.10. A 1,00 S EXTRA" }, 1) }) ∧
    materialize
        { groups := [],
          cur := some ({ value_date := "2025-10-01", booking_date := "2025-10-02",
                         description_lines := ["A", "EXTRA"], amount := mkRat (-100) 100,
                         type := "Debit",
                         raw_description := "01.10. 02.10. A 1,00 S EXTRA" }, 1) } =
      [].flatMap (fun g : Txn × Nat => List.replicate g.2 g.1) ++
        List.replicate 2 { value_date := "2025-10-01", booking_date := "2025-10-02",
                           description_lines := ["A", "EXTRA"], amount := mkRat (-100) 100,
                           type := "Debit",
                           raw_description := "01.10. 02.10. A 1,00 S EXTRA" } :=
  emitted_record_still_accumulates "2025" _ _ 0 "03.10. 04.10. NOAMT" "EXTRA"
    rfl (by decide) (by decide) (by decide) (by decide) (by decide)

/-- C7 counterexample: "ab.cd." splits into two parts that are NOT numeric,
yet `_parse_date` succeeds (returning a nonsense date) instead of failing —
the code never checks the parts for being numeric, and the only failure it
can raise is the tuple-unpacking ValueError (there is no `MalformedDateToken`
anywhere in the repository). -/
theorem parse_date_nonnumeric_succeeds :
    parse_date "ab.cd." "2025" = .ok "2025-cd-ab" := by decide

/-- C7 amended: `_parse_date` fails (with the ValueError of tuple unpacking —
the repository defines no `MalformedDateToken`) exactly when the dot-stripped
token does not split on "." into exactly two parts, numeric or not; whenever
the split yields two parts it succeeds with `year-month-day`, each part
zero-filled to width two (hence the ISO date for every valid `DD.MM.`
token). -/
theorem parse_date_spec (tok year : String) :
    ((∃ v, parse_date tok year = .ok v) ↔
      (splitOnChar '.' (stripWhile (fun c => c = '.') tok.data)).length = 2) ∧
    (∀ d m, splitOnChar '.' (stripWhile (fun c => c = '.') tok.data) = [d, m] →
      parse_date tok year = .ok ⟨year.data ++ '-' :: (zfill 2 m ++ '-' :: zfill 2 d)⟩) := by
  constructor
  · rcases hsp : splitOnChar '.' (stripWhile (fun c => c = '.') tok.data)
      with _ | ⟨d, _ | ⟨m, _ | ⟨x, rest⟩⟩⟩
    · simp only [parse_date, hsp]
      constructor
      · rintro ⟨v, hv⟩; cases hv
      · intro h; cases h
    · simp only [parse_date, hsp]
      constructor
      · rintro ⟨v, hv⟩; cases hv
      · intro h; cases h
    · constructor
      · intro _
        simp [hsp]
      · intro _
        exact ⟨⟨year.data ++ '-' :: (zfill 2 m ++ '-' :: zfill 2 d)⟩,
          by simp only [parse_date, hsp]⟩
    · simp only [parse_date, hsp]
      constructor
      · rintro ⟨v, hv⟩; cases hv
      · intro h
        simp only [List.length_cons] at h
        omega
  · intro d m hsp
    simp only [parse_date, hsp]

/-- C7 amended witness: the spec's own example token. -/
theorem parse_date_spec_witness :
    parse_date "01.10." "2025" = .ok "2025-10-01" := by
  have h := (parse_date_spec "01.10." "2025").2 ['0', '1'] ['1', '0'] (by decide)
  exact h

/-! ### The sign/type invariant (C8) -/

/-- Sign/type consistency of an extracted record: a Debit has a nonpositive
amount, a Credit a nonnegative one. -/
def SignOK (ty : String) (a : ℚ) : Prop :=
  (ty = "Debit" ∧ a ≤ 0) ∨ (ty = "Credit" ∧ 0 ≤ a)

/-- Sign/type consistency of a loop-internal record. -/
def TxnOK (t : Txn) : Prop := SignOK t.type t.amount

/-- Every record reachable from the loop state is sign/type consistent. -/
def StateOK (st : ExtractState) : Prop :=
  (∀ g ∈ st.groups, TxnOK g.1) ∧ ∀ t k, st.cur = some (t, k) → TxnOK t

theorem pure_eq_ok {α : Type} {x y : α} (h : (pure x : Except String α) = .ok y) :
    x = y :=
  Except.ok.inj h

theorem pyFloat_nonneg {l : List Char} {q : ℚ} (h : pyFloat l = .ok q) : 0 ≤ q := by
  unfold pyFloat at h
  split at h
  · rcases hsp : splitOnChar '.' l with _ | ⟨a, _ | ⟨b, _ | _⟩⟩ <;> simp only [hsp] at h
    · cases h
    · by_cases ha : a.isEmpty = true
      · rw [if_pos ha] at h
        cases h
      · rw [if_neg ha] at h
        rw [← Except.ok.inj h]
        apply Rat.mkRat_nonneg
        positivity
    · by_cases hab : (a.isEmpty && b.isEmpty) = true
      · rw [if_pos hab] at h
        cases h
      · rw [if_neg hab] at h
        rw [← Except.ok.inj h]
        apply Rat.mkRat_nonneg
        positivity
    · cases h
  · cases h

theorem except_bind_ok {α β : Type} (a : α) (f : α → Except String β) :
    (Except.ok a >>= f) = f a := rfl

theorem except_bind_error {α β : Type} (e : String) (f : α → Except String β) :
    ((Except.error e : Except String α) >>= f) = .error e := rfl

theorem parse_amount_sign {s : String} {ind : Char} {q : ℚ}
    (h : parse_amount s ind = .ok q) :
    (ind = 'S' → q ≤ 0) ∧ (ind ≠ 'S' → 0 ≤ q) := by
  simp only [parse_amount] at h
  rcases hf : pyFloat ((s.data.filter (fun c => c ≠ '.')).map
      (fun c => if c = ',' then '.' else c)) with e | m
  · rw [hf, except_bind_error] at h
    cases h
  · rw [hf, except_bind_ok] at h
    have hm : 0 ≤ m := pyFloat_nonneg hf
    rw [← pure_eq_ok h]
    constructor
    · intro hS
      rw [if_pos hS]
      exact neg_nonpos.mpr hm
    · intro hS
      rw [if_neg hS]
      exact hm

theorem findAmount_ind {l : List Char} {a : List Char} {ind : Char} {i : Nat}
    (h : findAmount l = some (a, ind, i)) : ind = 'S' ∨ ind = 'H' := by
  rcases hr : l.reverse with _ | ⟨c, rest⟩ <;> simp only [findAmount, hr] at h
  · cases h
  · split at h
    · split at h
      · cases h
      · split at h
        · cases h
        · simp only [Option.some.injEq, Prod.mk.injEq] at h
          obtain ⟨-, h2, -⟩ := h
          subst h2
          simp_all
    · cases h

theorem extractStep_preserves {year : String} {st st' : ExtractState} {line : String}
    (hok : StateOK st) (h : extractStep year st line = .ok st') : StateOK st' := by
  obtain ⟨hgroups, hcur⟩ := hok
  simp only [extractStep] at h
  rcases hm : matchRowStart (stripWhile isPySpace line.data) with _ | ⟨vd, bd, rowEnd⟩ <;>
    simp only [hm] at h
  · -- not a record-start line
    rcases hc : st.cur with _ | ⟨t, k⟩ <;> simp only [hc] at h
    · cases pure_eq_ok h
      exact ⟨hgroups, hcur⟩
    · split at h
      · cases pure_eq_ok h
        refine ⟨hgroups, ?_⟩
        intro t' k' ht'
        cases Option.some.inj ht'
        exact hcur t k hc
      · cases pure_eq_ok h
        exact ⟨hgroups, hcur⟩
  · -- record-start line
    rcases ha : findAmount (stripWhile isPySpace line.data) with _ | ⟨amtStr, typeInd, amtStart⟩ <;>
      simp only [ha] at h
    · cases pure_eq_ok h
      refine ⟨hgroups, ?_⟩
      intro t' k' ht'
      rcases hc : st.cur with _ | ⟨t, k⟩ <;> rw [hc] at ht'
      · cases ht'
      · cases Option.some.inj ht'
        exact hcur t k hc
    · rcases h1 : parse_date ⟨vd⟩ year with e | vdate
      · rw [h1, except_bind_error] at h
        cases h
      rw [h1, except_bind_ok] at h
      rcases h2 : parse_date ⟨bd⟩ year with e | bdate
      · rw [h2, except_bind_error] at h
        cases h
      rw [h2, except_bind_ok] at h
      rcases h3 : parse_amount ⟨amtStr⟩ typeInd with e | amount
      · rw [h3, except_bind_error] at h
        cases h
      rw [h3, except_bind_ok] at h
      cases pure_eq_ok h
      constructor
      · -- the flushed groups: the old groups plus possibly the bumped old record
        intro g hg
        obtain ⟨gt, gk⟩ := g
        rcases hc : st.cur with _ | ⟨t, k⟩ <;> rw [hc] at hg <;> simp at hg
        · exact hgroups _ hg
        · rcases hg with hg1 | ⟨rfl, rfl⟩
          · exact hgroups _ hg1
          · exact hcur _ _ hc
      · -- the freshly opened record
        intro t' k' ht'
        cases Option.some.inj ht'
        have hsign := parse_amount_sign h3
        rcases findAmount_ind ha with hS | hH
        · left
          refine ⟨?_, hsign.1 hS⟩
          subst hS
          simp [TxnOK, SignOK]
        · right
          subst hH
          refine ⟨by simp [TxnOK, SignOK], hsign.2 (by decide)⟩

theorem processLines_preserves {year : String} :
    ∀ {lines : List String} {st st' : ExtractState},
      StateOK st → processLines year lines st = .ok st' → StateOK st' := by
  intro lines
  induction lines with
  | nil =>
    intro st st' hok h
    cases Except.ok.inj h
    exact hok
  | cons l rest ih =>
    intro st st' hok h
    simp only [processLines] at h
    rcases h1 : extractStep year st l with e | st1
    · rw [h1, except_bind_error] at h
      cases h
    · rw [h1, except_bind_ok] at h
      exact ih (extractStep_preserves hok h1) h

/-- C8 counterexample: the record-start line "01.10. 02.10. X 0,00 S" has
the debit indicator `S`, and the produced record is typed Debit, but its
amount is 0 (Python: `-0.0`), which is NOT negative — the strict sign claim
fails at zero amounts. -/
theorem zero_amount_debit_not_negative :
    extract_transactions "01.10. 02.10. X 0,00 S" "2025" =
      .ok [{ value_date := "2025-10-01", booking_date := "2025-10-02",
             description := "X", amount := 0, type := "Debit",
             raw_description := "01.10. 02.10. X 0,00 S" }] ∧
    ¬ ((0 : ℚ) < 0) := by decide

/-- C8 amended: every record produced by `_extract_transactions` is sign/type
consistent in the weak sense forced by the zero-amount counterexample: a
record from an `S` line is typed Debit with amount ≤ 0, one from an `H` line
is typed Credit with amount ≥ 0 (strict whenever the parsed magnitude is
nonzero). -/
theorem sign_type_invariant (text year : String) (ts : List FinalTxn)
    (h : extract_transactions text year = .ok ts) :
    ∀ r ∈ ts, (r.type = "Debit" ∧ r.amount ≤ 0) ∨ (r.type = "Credit" ∧ 0 ≤ r.amount) := by
  simp only [extract_transactions] at h
  rcases hp : processLines year ((splitOnChar '\n' text.data).map
      (fun l => (⟨l⟩ : String))) { groups := [], cur := none } with e | st
  · rw [hp, except_bind_error] at h
    cases h
  · rw [hp, except_bind_ok] at h
    have hst : StateOK st := by
      refine processLines_preserves ⟨?_, ?_⟩ hp
      · intro g hg; cases hg
      · intro t k ht; cases ht
    unfold finalizeAll at h
    split at h
    · cases Except.ok.inj h
      intro r hr
      rcases List.mem_map.mp hr with ⟨g, hg, rfl⟩
      have hT : TxnOK g.1 := by
        rcases List.mem_append.mp hg with hg1 | hg2
        · exact hst.1 g hg1
        · rcases hc : st.cur with _ | ⟨t, k⟩ <;> rw [hc] at hg2
          · cases hg2
          · rcases List.mem_singleton.mp hg2 with rfl
            exact hst.2 t k hc
      exact hT
    · cases h

/-- C8 amended witness: the invariant applied to the concrete spec example
document, whose single record is a Debit of -12.34. -/
theorem sign_type_invariant_witness :
    (({ value_date := "2025-10-01", booking_date := "2025-10-02",
        description := "KARTENZAHLUNG GIROCARD ALDI SE + CO KG",
        amount := mkRat (-1234) 100, type := "Debit",
        raw_description :=
          "01.10. 02.10. KARTENZAHLUNG GIROCARD 12,34 S ALDI SE + CO KG" } : FinalTxn).type =
        "Debit" ∧
      ({ value_date := "2025-10-01", booking_date := "2025-10-02",
         description := "KARTENZAHLUNG GIROCARD ALDI SE + CO KG",
         amount := mkRat (-1234) 100, type := "Debit",
         raw_description :=
           "01.10. 02.10. KARTENZAHLUNG GIROCARD 12,34 S ALDI SE + CO KG" } : FinalTxn).amount ≤
        0) ∨
    (({ value_date := "2025-10-01", booking_date := "2025-10-02",
        description := "KARTENZAHLUNG GIROCARD ALDI SE + CO KG",
        amount := mkRat (-1234) 100, type := "Debit",
        raw_description :=
          "01.10. 02.10. KARTENZAHLUNG GIROCARD 12,34 S ALDI SE + CO KG" } : FinalTxn).type =
        "Credit" ∧
      0 ≤ ({ value_date := "2025-10-01", booking_date := "2025-10-02",
             description := "KARTENZAHLUNG GIROCARD ALDI SE + CO KG",
             amount := mkRat (-1234) 100, type := "Debit",
             raw_description :=
               "01.10. 02.10. KARTENZAHLUNG GIROCARD 12,34 S ALDI SE + CO KG" } : FinalTxn).amount) :=
  sign_type_invariant
    "01.10. 02.10. KARTENZAHLUNG GIROCARD 12,34 S\nALDI SE + CO KG" "2025" _ (by decide)
    _ (List.mem_singleton.mpr rfl)

/-! ### `src/data_manager.py` — the dedup key

`_generate_transaction_id` hashes `f"{value_date}_{amount}_{description}"`
with `hashlib.md5` and keeps the first 16 hex characters.  MD5 (RFC 1321)
is implemented below over byte lists, with 32-bit words as `Nat` reduced
mod 2^32.  The f-string encodes with UTF-8; the float field renders via
`str`, modelled for amounts with a terminating decimal expansion (the only
amounts the parser produces), where CPython's shortest round-trip `repr`
prints the exact decimal with trailing zeros dropped and at least one
fractional digit. -/

/-- Reduce to a 32-bit word. -/
def w32 (n : Nat) : Nat := n % 4294967296

/-- 32-bit left rotation (for `x < 2^32`). -/
def rotl32 (x c : Nat) : Nat := w32 (x * 2 ^ c) + x / 2 ^ (32 - c)

/-- The 64 MD5 sine-derived constants `K[i] = floor(2^32 * abs(sin(i+1)))`. -/
def md5K : List Nat :=
  [0xd76aa478, 0xe8c7b756, 0x242070db, 0xc1bdceee,
   0xf57c0faf, 0x4787c62a, 0xa8304613, 0xfd469501,
   0x698098d8, 0x8b44f7af, 0xffff5bb1, 0x895cd7be,
   0x6b901122, 0xfd987193, 0xa679438e, 0x49b40821,
   0xf61e2562, 0xc040b340, 0x265e5a51, 0xe9b6c7aa,
   0xd62f105d, 0x02441453, 0xd8a1e681, 0xe7d3fbc8,
   0x21e1cde6, 0xc33707d6, 0xf4d50d87, 0x455a14ed,
   0xa9e3e905, 0xfcefa3f8, 0x676f02d9, 0x8d2a4c8a,
   0xfffa3942, 0x8771f681, 0x6d9d6122, 0xfde5380c,
   0xa4beea44, 0x4bdecfa9, 0xf6bb4b60, 0xbebfbc70,
   0x289b7ec6, 0xeaa127fa, 0xd4ef3085, 0x04881d05,
   0xd9d4d039, 0xe6db99e5, 0x1fa27cf8, 0xc4ac5665,
   0xf4292244, 0x432aff97, 0xab9423a7, 0xfc93a039,
   0x655b59c3, 0x8f0ccc92, 0xffeff47d, 0x85845dd1,
   0x6fa87e4f, 0xfe2ce6e0, 0xa3014314, 0x4e0811a1,
   0xf7537e82, 0xbd3af235, 0x2ad7d2bb, 0xeb86d391]

/-- The 64 per-round left-rotation amounts. -/
def md5S : List Nat :=
  [7, 12, 17, 22, 7, 12, 17, 22, 7, 12, 17, 22, 7, 12, 17, 22,
   5, 9, 14, 20, 5, 9, 14, 20, 5, 9, 14, 20, 5, 9, 14, 20,
   4, 11, 16, 23, 4, 11, 16, 23, 4, 11, 16, 23, 4, 11, 16, 23,
   6, 10, 15, 21, 6, 10, 15, 21, 6, 10, 15, 21, 6, 10, 15, 21]

/-- The four MD5 round functions F, G, H, I (complement as `2^32-1 - x`). -/
def md5F (i b c d : Nat) : Nat :=
  if i < 16 then (b &&& c) ||| ((4294967295 - b) &&& d)
  else if i < 32 then (d &&& b) ||| ((4294967295 - d) &&& c)
  else if i < 48 then b ^^^ c ^^^ d
  else c ^^^ (b ||| (4294967295 - d))

/-- The message-word index schedule. -/
def md5G (i : Nat) : Nat :=
  if i < 16 then i
  else if i < 32 then (5 * i + 1) % 16
  else if i < 48 then (3 * i + 5) % 16
  else (7 * i) % 16

/-- Little-endian byte serialization (`k` bytes of `n`). -/
def leBytes : Nat → Nat → List Nat
  | 0, _ => []
  | k + 1, n => n % 256 :: leBytes k (n / 256)

/-- Little-endian 32-bit word from 4 bytes. -/
def leWord (bs : List Nat) : Nat :=
  match bs with
  | [b0, b1, b2, b3] => b0 + 256 * b1 + 65536 * b2 + 16777216 * b3
  | _ => 0

/-- One MD5 round on the register quadruple. -/
def md5Round (M : Nat → Nat) (st : Nat × Nat × Nat × Nat) (i : Nat) :
    Nat × Nat × Nat × Nat :=
  let f := w32 (md5F i st.2.1 st.2.2.1 st.2.2.2 + st.1 + md5K.getD i 0 + M (md5G i))
  (st.2.2.2, w32 (st.2.1 + rotl32 f (md5S.getD i 0)), st.2.1, st.2.2.1)

/-- Process one 64-byte chunk: 64 rounds, then add into the running state. -/
def md5Chunk (st : Nat × Nat × Nat × Nat) (chunk : List Nat) : Nat × Nat × Nat × Nat :=
  let M := fun j => leWord ((chunk.drop (4 * j)).take 4)
  let r := (List.range 64).foldl (md5Round M) st
  (w32 (st.1 + r.1), w32 (st.2.1 + r.2.1), w32 (st.2.2.1 + r.2.2.1), w32 (st.2.2.2 + r.2.2.2))

/-- Process `n` chunks of the padded message. -/
def md5Chunks : Nat → List Nat → (Nat × Nat × Nat × Nat) → Nat × Nat × Nat × Nat
  | 0, _, st => st
  | n + 1, bytes, st => md5Chunks n (bytes.drop 64) (md5Chunk st (bytes.take 64))

/-- MD5 padding: a `0x80` byte, zeros to 56 mod 64, then the bit length as
8 little-endian bytes. -/
def md5Pad (msg : List Nat) : List Nat :=
  let padZeros := (56 + 64 - (msg.length + 1) % 64) % 64
  msg ++ 128 :: (List.replicate padZeros 0 ++ leBytes 8 (8 * msg.length))

/-- Lower-case hex digit. -/
def hexDigitChar (n : Nat) : Char :=
  if n < 10 then Char.ofNat (48 + n) else Char.ofNat (87 + n)

/-- Lower-case hex rendering of a byte list (`hexdigest`). -/
def bytesToHex (bs : List Nat) : List Char :=
  bs.flatMap (fun b => [hexDigitChar (b / 16), hexDigitChar (b % 16)])

/-- `hashlib.md5(msg).hexdigest()` as a character list. -/
def md5Hex (msg : List Nat) : List Char :=
  let padded := md5Pad msg
  let r := md5Chunks (padded.length / 64) padded
    (1732584193, 4023233417, 2562383102, 271733878)
  bytesToHex (leBytes 4 r.1 ++ leBytes 4 r.2.1 ++ leBytes 4 r.2.2.1 ++ leBytes 4 r.2.2.2)

/-- UTF-8 encoding of one character (`str.encode()`). -/
def utf8Char (c : Char) : List Nat :=
  let n := c.toNat
  if n < 128 then [n]
  else if n < 2048 then [192 + n / 64, 128 + n % 64]
  else if n < 65536 then [224 + n / 4096, 128 + n / 64 % 64, 128 + n % 64]
  else [240 + n / 262144, 128 + n / 4096 % 64, 128 + n / 64 % 64, 128 + n % 64]

/-- UTF-8 encoding of a string (`str.encode()`). -/
def utf8Bytes (s : String) : List Nat := s.data.flatMap utf8Char

/-- CPython `str` of the float `(-1)^neg * mag` (with `mag ≥ 0`): the sign
bit prints even when the magnitude is zero (`str(-0.0) = "-0.0"` although
`-0.0 == 0.0`), followed by the magnitude's shortest exact decimal with at
least one fractional digit ("x.0" for whole numbers) — the repr of every
amount the parser produces (all have terminating decimal expansions).
Magnitudes without a terminating expansion cannot arise and fall back to the
rational literal. -/
def pyFloatStr (neg : Bool) (mag : ℚ) : String :=
  (if neg then "-" else "") ++
  (match (List.range 65).find? (fun k => 10 ^ k % mag.den == 0) with
   | some k =>
     let n := mag.num.natAbs * (10 ^ k / mag.den)
     let ip := toString (n / 10 ^ k)
     let fp : String := if k = 0 then "0" else ⟨zfill k (toString (n % 10 ^ k)).data⟩
     ip ++ "." ++ fp
   | none => toString mag)

/-- The sign bit of the CPython float stored in the record's amount slot.
`FinalTxn.amount : ℚ` is the float's numeric value — what `==`, `<` and the
arithmetic observe — which determines the bit except at zero.  There the bit
is set exactly for debit records: `_parse_amount` negates for the indicator
'S', producing -0.0 on a "0,00 S" line (every extractor record has the
Debit tag exactly for 'S', see `sign_type_invariant`). -/
def amountNeg (t : FinalTxn) : Bool :=
  t.amount < 0 || (t.amount = 0 && t.type = "Debit")

/-- The magnitude of the float stored in the record's amount slot. -/
def amountMag (t : FinalTxn) : ℚ :=
  if t.amount < 0 then -t.amount else t.amount

/-- `DataManager._generate_transaction_id(transaction)`:
`md5(f"{value_date}_{amount}_{description}".encode()).hexdigest()[:16]`,
the amount slot holding the parser's float (sign bit included). -/
def generate_transaction_id (t : FinalTxn) : String :=
  let unique_string := t.value_date ++ "_" ++ pyFloatStr (amountNeg t) (amountMag t)
    ++ "_" ++ t.description
  ⟨(md5Hex (utf8Bytes unique_string)).take 16⟩

theorem leBytes_length (k : Nat) : ∀ n, (leBytes k n).length = k := by
  induction k with
  | zero => intro n; rfl
  | succ k ih => intro n; simp [leBytes, ih]

theorem bytesToHex_length (bs : List Nat) : (bytesToHex bs).length = 2 * bs.length := by
  induction bs with
  | nil => rfl
  | cons b t ih =>
    simp only [bytesToHex, List.flatMap_cons] at ih ⊢
    simp [ih]
    omega

theorem md5Hex_length (msg : List Nat) : (md5Hex msg).length = 32 := by
  simp only [md5Hex]
  rw [bytesToHex_length]
  simp [leBytes_length]

set_option maxRecDepth 100000 in
/-- C5 counterexample: CPython floats carry a sign bit that the program's
own equality ignores.  A "0,00 S" line yields a record storing -0.0 and a
"0,00 H" line one storing 0.0: the two records agree on value_date, amount
(-0.0 == 0.0) and description, yet the f-string renders "-0.0" vs "0.0" and
the 16-character keys differ — the model reproduces CPython's exact digests
"ce010729cb6d1981" and "f2dcf73dfd2c02c3". -/
theorem signed_zero_distinct_keys :
    extract_transactions "01.10. 02.10. X 0,00 S" "2025" =
      .ok [{ value_date := "2025-10-01", booking_date := "2025-10-02",
             description := "X", amount := 0, type := "Debit",
             raw_description := "01.10. 02.10. X 0,00 S" }] ∧
    extract_transactions "01.10. 02.10. X 0,00 H" "2025" =
      .ok [{ value_date := "2025-10-01", booking_date := "2025-10-02",
             description := "X", amount := 0, type := "Credit",
             raw_description := "01.10. 02.10. X 0,00 H" }] ∧
    generate_transaction_id
      { value_date := "2025-10-01", booking_date := "2025-10-02",
        description := "X", amount := 0, type := "Debit",
        raw_description := "01.10. 02.10. X 0,00 S" } = "ce010729cb6d1981" ∧
    generate_transaction_id
      { value_date := "2025-10-01", booking_date := "2025-10-02",
        description := "X", amount := 0, type := "Credit",
        raw_description := "01.10. 02.10. X 0,00 H" } = "f2dcf73dfd2c02c3" ∧
    "ce010729cb6d1981" ≠ "f2dcf73dfd2c02c3" := by decide

/-- C5 amended: the dedup key is a 16-character string and a deterministic
pure function of the transaction's value_date, amount float and description
— independent of every other field and of any store state (the function
consults none).  Two transactions agreeing on value_date, amount and
description get the identical key provided they also agree on the
debit/credit tag, which fixes the stored float's sign bit — the one part of
the float that `amount` equality does not determine, and only at zero (see
the counterexample). -/
theorem transaction_id_contract :
    (∀ t : FinalTxn, (generate_transaction_id t).length = 16) ∧
    (∀ t t' : FinalTxn, t.value_date = t'.value_date → t.amount = t'.amount →
      t.description = t'.description → (t.type = "Debit" ↔ t'.type = "Debit") →
      generate_transaction_id t = generate_transaction_id t') := by
  constructor
  · intro t
    show (List.take 16 (md5Hex _)).length = 16
    rw [List.length_take, md5Hex_length]
    omega
  · intro t t' h1 h2 h3 h4
    have hty : decide (t.type = "Debit") = decide (t'.type = "Debit") :=
      decide_eq_decide.mpr h4
    have hne : amountNeg t = amountNeg t' := by
      simp only [amountNeg, h2, hty]
    have hmg : amountMag t = amountMag t' := by
      simp only [amountMag, h2]
    simp only [generate_transaction_id, hne, hmg, h1, h3]

/-- C5 amended witness: the contract applied at two concrete transactions
that agree on the keyed fields and the type tag but differ elsewhere. -/
theorem transaction_id_contract_witness :
    (generate_transaction_id
      { value_date := "2025-10-01", booking_date := "2025-10-02",
        description := "X", amount := mkRat (-1234) 100, type := "Debit",
        raw_description := "01.10. 02.10. X 12,34 S" }).length = 16 ∧
    generate_transaction_id
      { value_date := "2025-10-01", booking_date := "2025-10-02",
        description := "X", amount := mkRat (-1234) 100, type := "Debit",
        raw_description := "01.10. 02.10. X 12,34 S" } =
    generate_transaction_id
      { value_date := "2025-10-01", booking_date := "2025-10-03",
        description := "X", amount := mkRat (-1234) 100, type := "Debit",
        raw_description := "other raw text" } :=
  ⟨transaction_id_contract.1 _, transaction_id_contract.2 _ _ rfl rfl rfl Iff.rfl⟩

/-! ### `src/data_manager.py` — ingestion -/

end AusgabeAnalyst
